import Mathlib

set_option maxRecDepth 20000
set_option maxHeartbeats 1000000
set_option synthInstance.maxHeartbeats 400000

/-!
Verification of the flashcard generation orchestrator
(src/flaschcard_generator.py).

Strings are modelled as `List Char`.  The language model client
(`self.llm.invoke`) is modelled as an opaque gateway function that receives
the call index (calls are numbered in execution order, so distinct calls may
return distinct responses) and the prompt, and returns the raw response text.
`json.loads` is modelled by an executable JSON parser over `List Char`
(`jsonParse`); Python exceptions are modelled with `Except` / `Option`.
The LangGraph runtime is modelled by `runLoop`: one node execution per
superstep, at most `recursion_limit` supersteps, ending with a
`GraphRecursionError` (modelled as `RunError.recursionLimit`) when the graph
has not reached END within the limit.  Logging and the output file writer
(`_write_results_to_file`, which swallows its own errors and does not affect
the returned value) are omitted.
-/

/-! ## Python string primitives -/

/-- Whitespace characters stripped by the Python method `str.strip`. -/
def isPyWs (c : Char) : Bool :=
  c = ' ' || c = '\t' || c = '\n' || c = '\r' || c = '\x0b' || c = '\x0c'

/-- Model of the Python method `str.strip()` (no argument): remove leading and
trailing whitespace. -/
def pyStrip (s : List Char) : List Char :=
  ((s.dropWhile isPyWs).reverse.dropWhile isPyWs).reverse

/-- Model of the Python call `s.split("\n")`: split at every newline, keeping
empty segments; the empty string yields one empty segment. -/
def splitLines : List Char → List (List Char)
  | [] => [[]]
  | c :: rest =>
    if c = '\n' then [] :: splitLines rest
    else
      match splitLines rest with
      | [] => [[c]]
      | l :: ls => (c :: l) :: ls

/-- Model of the Python call `"\n".join(lines)`. -/
def joinLines : List (List Char) → List Char
  | [] => []
  | [l] => l
  | l :: ls => l ++ '\n' :: joinLines ls

/-- Model of the Python method `str.startswith`. -/
def pyStartswith (p s : List Char) : Bool := p.isPrefixOf s

/-- Model of the Python method `str.endswith`. -/
def pyEndswith (p s : List Char) : Bool := p.isSuffixOf s

/-! ## Association lists with Python dict update semantics -/

/-- Model of the Python dict update `{**m, k: v}` on a dict with unique keys:
if `k` is already a key, its value is replaced at its original position,
otherwise the pair is appended at the end (insertion order semantics). -/
def dictInsert {β : Type} : List (List Char × β) → List Char → β → List (List Char × β)
  | [], k, v => [(k, v)]
  | (k', v') :: rest, k, v =>
    if k' = k then (k', v) :: rest else (k', v') :: dictInsert rest k v

/-- Model of Python dict lookup (first matching key). -/
def dictGet {β : Type} : List (List Char × β) → List Char → Option β
  | [], _ => none
  | (k', v) :: rest, k => if k' = k then some v else dictGet rest k

/-- The keys of an association list, in order. -/
def dictKeys {β : Type} (m : List (List Char × β)) : List (List Char) :=
  m.map Prod.fst

/-! ## JSON values and a model of `json.loads` -/

/-- JSON values as produced by `json.loads`.  Number lexemes are kept as raw
text: the validator never inspects numeric values, only dict shape and key
membership. -/
inductive JValue : Type where
  | null : JValue
  | jbool : Bool → JValue
  | jnum : List Char → JValue
  | jstr : List Char → JValue
  | jarr : List JValue → JValue
  | jobj : List (List Char × JValue) → JValue

/-- JSON whitespace accepted by `json.loads` between tokens. -/
def isJsonWs (c : Char) : Bool :=
  c = ' ' || c = '\t' || c = '\n' || c = '\r'

def skipWs (s : List Char) : List Char := s.dropWhile isJsonWs

/-- Value of one hexadecimal digit, for `\uXXXX` string escapes. -/
def hexDigitVal (c : Char) : Option Nat :=
  if '0' ≤ c ∧ c ≤ '9' then some (c.toNat - '0'.toNat)
  else if 'a' ≤ c ∧ c ≤ 'f' then some (c.toNat - 'a'.toNat + 10)
  else if 'A' ≤ c ∧ c ≤ 'F' then some (c.toNat - 'A'.toNat + 10)
  else none

/-- Single-character JSON string escapes. -/
def escapeChar (c : Char) : Option Char :=
  if c = '"' then some '"'
  else if c = '\\' then some '\\'
  else if c = '/' then some '/'
  else if c = 'b' then some (Char.ofNat 8)
  else if c = 'f' then some (Char.ofNat 12)
  else if c = 'n' then some '\n'
  else if c = 'r' then some '\r'
  else if c = 't' then some '\t'
  else none

/-- Parse the body of a JSON string literal (the opening quote has been
consumed); returns the decoded string and the remaining input.  Raw control
characters are rejected, as in strict-mode `json.loads`. -/
def parseJString : List Char → Option (List Char × List Char)
  | [] => none
  | c :: rest =>
    if c = '"' then some ([], rest)
    else if c = '\\' then
      match rest with
      | [] => none
      | e :: rest2 =>
        if e = 'u' then
          match rest2 with
          | h1 :: h2 :: h3 :: h4 :: rest3 =>
            match hexDigitVal h1, hexDigitVal h2, hexDigitVal h3, hexDigitVal h4 with
            | some a, some b, some c2, some d =>
              match parseJString rest3 with
              | some (s, r) => some (Char.ofNat (((a * 16 + b) * 16 + c2) * 16 + d) :: s, r)
              | none => none
            | _, _, _, _ => none
          | _ => none
        else
          match escapeChar e with
          | some ec =>
            match parseJString rest2 with
            | some (s, r) => some (ec :: s, r)
            | none => none
          | none => none
    else if c.toNat < 32 then none
    else
      match parseJString rest with
      | some (s, r) => some (c :: s, r)
      | none => none

/-- One-or-more decimal digits. -/
def parseNumDigits (s : List Char) : List Char × List Char :=
  (s.takeWhile Char.isDigit, s.dropWhile Char.isDigit)

/-- Optional fraction part of a JSON number. -/
def parseFrac (s : List Char) : Option (List Char × List Char) :=
  match s with
  | '.' :: r =>
    let (ds, r2) := parseNumDigits r
    if ds = [] then none else some ('.' :: ds, r2)
  | _ => some ([], s)

/-- Optional exponent part of a JSON number. -/
def parseExp (s : List Char) : Option (List Char × List Char) :=
  match s with
  | e :: r =>
    if e = 'e' ∨ e = 'E' then
      let (sgn, r2) :=
        match r with
        | '+' :: rr => ((['+'] : List Char), rr)
        | '-' :: rr => ((['-'] : List Char), rr)
        | _ => (([] : List Char), r)
      let (ds, r3) := parseNumDigits r2
      if ds = [] then none else some (e :: (sgn ++ ds), r3)
    else some ([], s)
  | [] => some ([], [])

/-- JSON number grammar: optional minus, integer part without leading zeros,
optional fraction and exponent.  The lexeme is kept verbatim. -/
def parseNumber (input : List Char) : Option (JValue × List Char) :=
  let (neg, r1) :=
    match input with
    | '-' :: r => ((['-'] : List Char), r)
    | _ => (([] : List Char), input)
  match r1 with
  | [] => none
  | c :: r2 =>
    if c = '0' then
      match parseFrac r2 with
      | none => none
      | some (f, r4) =>
        match parseExp r4 with
        | none => none
        | some (ex, r5) => some (JValue.jnum (neg ++ ['0'] ++ f ++ ex), r5)
    else if c.isDigit then
      let (ds, r3) := parseNumDigits r2
      match parseFrac r3 with
      | none => none
      | some (f, r4) =>
        match parseExp r4 with
        | none => none
        | some (ex, r5) => some (JValue.jnum (neg ++ (c :: ds) ++ f ++ ex), r5)
    else none

mutual

/-- Recursive-descent JSON value parser (the fuel only bounds nesting depth;
`jsonParse` supplies more fuel than any input can consume). -/
def parseValue : Nat → List Char → Option (JValue × List Char)
  | 0, _ => none
  | fuel + 1, input =>
    match skipWs input with
    | [] => none
    | c :: rest =>
      if c = '{' then
        match skipWs rest with
        | '}' :: r2 => some (JValue.jobj [], r2)
        | _ => parseObjItems fuel rest []
      else if c = '[' then
        match skipWs rest with
        | ']' :: r2 => some (JValue.jarr [], r2)
        | _ => parseArrItems fuel rest []
      else if c = '"' then
        match parseJString rest with
        | some (s, r) => some (JValue.jstr s, r)
        | none => none
      else if c = 't' then
        match rest with
        | 'r' :: 'u' :: 'e' :: r => some (JValue.jbool true, r)
        | _ => none
      else if c = 'f' then
        match rest with
        | 'a' :: 'l' :: 's' :: 'e' :: r => some (JValue.jbool false, r)
        | _ => none
      else if c = 'n' then
        match rest with
        | 'u' :: 'l' :: 'l' :: r => some (JValue.null, r)
        | _ => none
      else if c = '-' ∨ c.isDigit then parseNumber (c :: rest)
      else none

/-- Comma-separated array elements, after at least one element is known to
follow. -/
def parseArrItems : Nat → List Char → List JValue → Option (JValue × List Char)
  | 0, _, _ => none
  | fuel + 1, input, acc =>
    match parseValue fuel input with
    | none => none
    | some (v, r) =>
      match skipWs r with
      | ',' :: r2 => parseArrItems fuel r2 (acc ++ [v])
      | ']' :: r2 => some (JValue.jarr (acc ++ [v]), r2)
      | _ => none

/-- Comma-separated object members; duplicate keys follow Python dict
semantics (last value wins). -/
def parseObjItems : Nat → List Char → List (List Char × JValue) → Option (JValue × List Char)
  | 0, _, _ => none
  | fuel + 1, input, acc =>
    match skipWs input with
    | '"' :: rest =>
      match parseJString rest with
      | none => none
      | some (key, r1) =>
        match skipWs r1 with
        | ':' :: r2 =>
          match parseValue fuel r2 with
          | none => none
          | some (v, r3) =>
            match skipWs r3 with
            | ',' :: r4 => parseObjItems fuel r4 (dictInsert acc key v)
            | '}' :: r4 => some (JValue.jobj (dictInsert acc key v), r4)
            | _ => none
        | _ => none
    | _ => none

end

/-- Model of `json.loads`: parse one JSON value, allowing surrounding
whitespace and rejecting trailing data.  `none` models a raised
`json.JSONDecodeError`. -/
def jsonParse (input : List Char) : Option JValue :=
  match parseValue (input.length + 1) input with
  | some (v, rest) => if skipWs rest = [] then some v else none
  | none => none

/-! ## Output Validator (lines 244-272 of `_create_flashcards_for_category`) -/

/-- The three-backtick code fence marker. -/
def ticks : List Char := "```".data

/-- Preprocessing of the raw model response (lines 244-251): trim surrounding
whitespace, and if the result starts and ends with a three-backtick fence,
drop exactly the first and last line and trim again. -/
def validateContent (raw : List Char) : List Char :=
  if pyStartswith ticks (pyStrip raw) && pyEndswith ticks (pyStrip raw) then
    pyStrip (joinLines (((splitLines (pyStrip raw)).drop 1).dropLast))
  else pyStrip raw

/-- Model of the Python membership test `k in card` for a parsed JSON
object. -/
def containsKeyJ (fields : List (List Char × JValue)) (k : List Char) : Bool :=
  fields.any fun p => decide (p.1 = k)

/-- The per-card check of lines 262-268: the card must be a dict containing
the keys `question` and `answer` (values are not inspected). -/
def isValidCard : JValue → Bool
  | JValue.jobj fields =>
    containsKeyJ fields ("question".data) && containsKeyJ fields ("answer".data)
  | _ => false

/-- The card loop of lines 262-268: raise `ValueError` at the first invalid
card. -/
def checkCards : List JValue → Except (List Char) Unit
  | [] => Except.ok ()
  | card :: rest =>
    if isValidCard card then checkCards rest
    else Except.error ("Invalid flashcard format".data)

/-- The try-block of lines 258-268: `json.loads`, the top-level list check,
and the per-card checks; `Except.error` models a raised
`JSONDecodeError`/`ValueError`. -/
def parseFlashcards (content : List Char) : Except (List Char) (List JValue) :=
  match jsonParse content with
  | none => Except.error ("json decode error".data)
  | some v =>
    match v with
    | JValue.jarr cards =>
      match checkCards cards with
      | Except.ok _ => Except.ok cards
      | Except.error e => Except.error e
    | _ => Except.error ("Flashcards should be a list".data)

/-- The complete Output Validator (lines 244-272): preprocessing, parsing and
schema checks; the except-handler of lines 269-272 logs and falls back to the
empty list. -/
def validateFlashcards (raw : List Char) : List JValue :=
  match parseFlashcards (validateContent raw) with
  | Except.ok cards => cards
  | Except.error _ => []

/-! ## Prompts (lines 142-155 and 180-237) -/

/-- The category planner prompt template of `_create_categories`. -/
def categoriesPromptText : String := "
        Generate categories from study materials for flashcard creation

        You will be provided with study materials on a specific topic. Your task is to:

        1. Analyze the content thoroughly.
        2. Identify key themes, concepts, and subject areas within the material.
        3. Create a list of distinct categories that comprehensively cover the main points of the study materials.
        4. Ensure the categories are broad enough to encompass multiple related facts or concepts, but specific enough to be meaningful for flashcard creation.
        5. Aim for between 7-10 main categories, depending on the breadth and depth of the material.
        6. Output only the names of the categories, one per line.

        Your output will be used in a subsequent step to create question/answer style flashcards for students, so keep this end goal in mind when formulating your categories.
        "

/-- The full prompt sent by `_create_categories` (line 157-159). -/
def categoriesPromptFull (materials : List Char) : List Char :=
  categoriesPromptText.data ++ "\n\nStudy materials:\n".data ++ materials

/-- The generation prompt template of `_create_flashcards_for_category`. -/
def flashcardPromptText : String := "
        Using the provided study materials and categories, your task is to create detailed yet easy-to-understand question/answer style flashcards. Follow these guidelines:

        1. Ensure the answers are thorough but not overwhelming. Break down complex ideas into simpler terms.

        2. Use simple language, analogies, and a narrative structure to make the concept understandable to someone with no technical background. Focus on its main purpose and benefits, avoiding jargon and technical details.

        3. Vary the types of questions to include:
        - Definition questions
        - \"How\" and \"Why\" questions to test understanding
        - Comparison questions
        - Application questions that relate concepts to real-world scenarios

        4. Include mnemonics, diagrams, or other memory aids when helpful.

        5. Ensure each flashcard can stand alone without requiring information from other cards.


        Example output format:

        Category: [Name of Category]

        Flashcard 1:
        Q: [Clear, concise question]
        A: [Detailed, easy-to-understand answer. Include a brief story or example if applicable.]

        Flashcard 2:
        Q: [Another question related to the category]
        A: [Thorough answer with an interesting fact or analogy to aid memory]

        Flashcard 3 (Misconception):
        Q: [Common misunderstanding about a concept]
        A: [Correction of the misconception with a clear explanation]

        Flashcard 4 (Multi-step):
        Q: [Question requiring multiple steps to answer]
        A:
        Step 1: [First part of the answer]
        Step 2: [Second part of the answer]
        Step 3: [Final part of the answer]

        [Continue with additional flashcards for each category]

        Remember, the goal is to create flashcards that are not only informative but also engaging and memorable for students.


        Provide the flashcards in the following JSON format **without** any code fences, backticks, or additional text:

        [
            \x7b
                \"question\": \"Clear, concise question\",
                \"answer\": \"Detailed, easy-to-understand answer.\"
            \x7d,
            // ... more flashcards
        ]

        Ensure your response is valid JSON and contains **only** the JSON data, with no additional text or formatting.
        "

/-- The full prompt sent by `_create_flashcards_for_category`
(lines 239-242). -/
def flashcardPromptFull (materials cat : List Char) : List Char :=
  flashcardPromptText.data ++ "\n\nStudy materials:\n".data ++ materials
    ++ "\n\nCategory:\n".data ++ cat

/-! ## Workflow state and nodes -/

/-- The mapping from category name to flashcard list (`flashcards` key of the
workflow state, variant with per-category scoping). -/
abbrev FlashDict := List (List Char × List JValue)

/-- The `State` dict threaded through the LangGraph workflow (lines 45-50).
The `end` key is called `endFlag` (`end` is reserved in Lean). -/
structure RunState : Type where
  study_materials : List Char
  categories : List (List Char)
  flashcards : FlashDict
  current_category : List Char
  endFlag : Bool

/-- The model gateway: call index and prompt to raw response text. -/
abbrev Gateway := Nat → List Char → List Char

/-- The list comprehension of lines 161-163: split the response into lines,
strip each, keep the non-blank ones in order. -/
def extractCategories (resp : List Char) : List (List Char) :=
  ((splitLines resp).map pyStrip).filter fun l => !l.isEmpty

/-- The `create_categories` node (`_create_categories`, lines 131-165): one
gateway call, then set the `categories` key of the state. -/
def create_categories (gw : Gateway) (n : Nat) (s : RunState) : RunState :=
  { s with categories := extractCategories (gw n (categoriesPromptFull s.study_materials)) }

/-- The validated flashcards produced by one scoped generation call. -/
def genCards (gw : Gateway) (n : Nat) (materials cat : List Char) : List JValue :=
  validateFlashcards (gw n (flashcardPromptFull materials cat))

/-- The `create_flashcards` node (`_create_flashcards_for_category`,
lines 167-279): one gateway call, validation, and the dict update of
lines 274-279 (`{**state.get("flashcards", {}), current_category: cards}`). -/
def create_flashcards_for_category (gw : Gateway) (n : Nat) (s : RunState) : RunState :=
  let cards := genCards gw n s.study_materials s.current_category
  { s with flashcards := dictInsert s.flashcards s.current_category cards }

/-- The `select_next_category` node (lines 281-310): pop the front category,
or set the `end` flag when the queue is empty. -/
def select_next_category (s : RunState) : RunState :=
  match s.categories with
  | c :: rest =>
    { s with categories := rest, current_category := c, endFlag := false }
  | [] =>
    { s with categories := [], current_category := [], endFlag := true }

/-- The three graph nodes registered in `_create_workflow` (lines 52-79). -/
inductive Node : Type where
  | createCategories : Node
  | createFlashcards : Node
  | selectNext : Node
deriving DecidableEq

/-- One superstep: execute a node, advance the gateway call counter, and
follow the outgoing edge (`should_continue` of lines 64-72 for the
conditional edge out of `select_next_category`; `none` is the END edge). -/
def stepNode (gw : Gateway) (s : RunState) (n : Nat) : Node → RunState × Nat × Option Node
  | Node.createCategories => (create_categories gw n s, n + 1, some Node.selectNext)
  | Node.createFlashcards => (create_flashcards_for_category gw n s, n + 1, some Node.selectNext)
  | Node.selectNext =>
    let s' := select_next_category s
    (s', n, if s'.endFlag then none else some Node.createFlashcards)

/-- The LangGraph failure mode relevant here: `GraphRecursionError`. -/
inductive RunError : Type where
  | recursionLimit : RunError
deriving DecidableEq

/-- The LangGraph driver: at most `fuel` supersteps; the returned trace lists
each executed node with the `current_category` of the state it ran on. -/
def runLoop (gw : Gateway) : Nat → Node → RunState → Nat →
    Except RunError (RunState × List (Node × List Char))
  | 0, _, _, _ => Except.error RunError.recursionLimit
  | fuel + 1, node, s, n =>
    match stepNode gw s n node with
    | (s', _, none) => Except.ok (s', [(node, s.current_category)])
    | (s', n', some node') =>
      match runLoop gw fuel node' s' n' with
      | Except.ok (fin, tr) => Except.ok (fin, (node, s.current_category) :: tr)
      | Except.error e => Except.error e

/-- The iteration ceiling passed at line 334: `{"recursion_limit": 25}`. -/
def recursion_limit : Nat := 25

/-- The initial `WorkflowState` built at lines 326-332. -/
def initialState (materials : List Char) : RunState :=
  { study_materials := materials, categories := [], flashcards := [],
    current_category := [], endFlag := false }

/-- `self.workflow.invoke(initial_state, {"recursion_limit": 25})`
(line 334): drive the graph from the entry point `create_categories`. -/
def invokeWorkflow (gw : Gateway) (materials : List Char) :
    Except RunError (RunState × List (Node × List Char)) :=
  runLoop gw recursion_limit Node.createCategories (initialState materials) 0

/-! ## Run entry point (`generate_flashcards`, lines 312-347) -/

/-- The `study_materials` argument: either a Python `str` or a value of some
other type. -/
inductive PyMaterials : Type where
  | pystr : List Char → PyMaterials
  | nonString : PyMaterials

/-- The dict returned by `generate_flashcards`: the flashcard mapping, plus
an `error` key only on failure. -/
structure GenResult : Type where
  flashcards : FlashDict
  error : Option (List Char)

/-- An exception propagating out of `generate_flashcards`. -/
inductive PyException : Type where
  | valueError : List Char → PyException

/-- The `str(e)` text of the `GraphRecursionError` raised when the
`recursion_limit` of 25 supersteps is exhausted. -/
def graphRecursionMessage : List Char :=
  "Recursion limit of 25 reached without hitting a stop condition. You can increase the limit by setting the `recursion_limit` config key.".data

/-- Truthiness of the guard at line 322:
`not study_materials or not isinstance(study_materials, str)`. -/
def materialsBad : PyMaterials → Bool
  | PyMaterials.pystr s => decide (s = [])
  | PyMaterials.nonString => true

/-- `generate_flashcards` (lines 312-347): the input guard raises
`ValueError` outside the try-block; inside it, the workflow is driven and any
exception (here the recursion-limit error) is converted into an error result
`{"flashcards": {}, "error": str(e)}`.  On success the result carries no
`error` key. -/
def generate_flashcards (gw : Gateway) (study_materials : PyMaterials) :
    Except PyException GenResult :=
  match study_materials with
  | PyMaterials.nonString =>
    Except.error (PyException.valueError ("Invalid study materials provided".data))
  | PyMaterials.pystr s =>
    if s = [] then
      Except.error (PyException.valueError ("Invalid study materials provided".data))
    else
      match invokeWorkflow gw s with
      | Except.ok (final, _) => Except.ok { flashcards := final.flashcards, error := none }
      | Except.error _ => Except.ok { flashcards := [], error := some graphRecursionMessage }

/-! ## Specification helpers (used only to state properties) -/

/-- Folding the per-category generation over a category queue, threading the
gateway call counter: the shape of the flashcard mapping after the category
loop. -/
def genFold (gw : Gateway) (mats : List Char) : Nat → List (List Char) → FlashDict → FlashDict
  | _, [], m => m
  | n, c :: rest, m => genFold gw mats (n + 1) rest (dictInsert m c (genCards gw n mats c))

/-- The gateway call index of the last occurrence of a category in the
queue, when the first queue element is generated at call index `n`. -/
def lastGenCall : Nat → List (List Char) → List Char → Option Nat
  | _, [], _ => none
  | n, c :: rest, k =>
    match lastGenCall (n + 1) rest k with
    | some j => some j
    | none => if c = k then some n else none

/-- The node trace of the category loop, starting at `select_next_category`
with current category `cur`. -/
def loopTrace (cur : List Char) : List (List Char) → List (Node × List Char)
  | [] => [(Node.selectNext, cur)]
  | c :: rest => (Node.selectNext, cur) :: (Node.createFlashcards, c) :: loopTrace c rest

/-- The categories processed by the `Generating` transitions of a trace, in
order. -/
def genList (tr : List (Node × List Char)) : List (List Char) :=
  (tr.filter fun e => e.1 == Node.createFlashcards).map Prod.snd

/-- Spec-side predicate (section 3 of the spec): a flashcard has non-empty
string `question` and `answer` fields. -/
def specNonEmptyQA : JValue → Bool
  | JValue.jobj fields =>
    (match dictGet fields ("question".data) with
     | some (JValue.jstr s) => !s.isEmpty
     | _ => false) &&
    (match dictGet fields ("answer".data) with
     | some (JValue.jstr s) => !s.isEmpty
     | _ => false)
  | _ => false

/-- Wrap a text in a three-backtick fence line before its first line and
after its last line. -/
def fenceWrap (t : List Char) : List Char :=
  "```\n".data ++ t ++ "\n```".data

/-! ## Concrete inputs used by witnesses and counterexamples -/

/-- A gateway stub returning a fixed non-JSON response. -/
def gwStub : Gateway := fun _ _ => []

def emptyFieldsResponse : List Char :=
  "[\x7b\"question\": \"\", \"answer\": \"\"\x7d]".data

def emptyFieldsCard : JValue :=
  JValue.jobj [("question".data, JValue.jstr []), ("answer".data, JValue.jstr [])]

def goodResponse : List Char :=
  "[\x7b\"question\": \"Q\", \"answer\": \"A\"\x7d]".data

def goodCard : JValue :=
  JValue.jobj [("question".data, JValue.jstr "Q".data), ("answer".data, JValue.jstr "A".data)]

def plainResponse : List Char :=
  "[\x7b\"question\": \"q1\", \"answer\": \"a1\"\x7d]".data

def selfFencedResponse : List Char :=
  "```\n[\x7b\"question\": \"q\", \"answer\": \"a\"\x7d]\n```".data

def qaCard : JValue :=
  JValue.jobj [("question".data, JValue.jstr "q".data), ("answer".data, JValue.jstr "a".data)]

def gwPlanner : Gateway := fun _ _ => " Alpha \n\nBeta\nAlpha".data

def frameState : RunState :=
  ⟨"m".data, [], [("Other".data, [JValue.null])], "Cur".data, false⟩

def pathologicalPlannerResponse : List Char :=
  "c01\nc02\nc03\nc04\nc05\nc06\nc07\nc08\nc09\nc10\nc11\nc12".data

def gwTwelve : Gateway := fun _ _ => pathologicalPlannerResponse

def gwThirteen : Gateway := fun _ _ =>
  "d01\nd02\nd03\nd04\nd05\nd06\nd07\nd08\nd09\nd10\nd11\nd12\nd13".data

def gwPair : Gateway := fun _ _ => "Alpha\nBeta".data

def dupPlannerResponse : List Char := "A\nB\nA\nC\nD\nE\nF\nG\nH\nI\nJ\nK".data

def gwDupTwelve : Gateway := fun _ _ => dupPlannerResponse

def dupResponses : Gateway := fun n _ =>
  if n = 0 then "A\nB\nA".data
  else if n = 1 then "[\x7b\"question\": \"q1\", \"answer\": \"a1\"\x7d]".data
  else if n = 2 then "[\x7b\"question\": \"q2\", \"answer\": \"a2\"\x7d]".data
  else "[\x7b\"question\": \"q3\", \"answer\": \"a3\"\x7d]".data

/-! ## Lemmas about the dict model -/

theorem dictGet_dictInsert_self {β : Type} (m : List (List Char × β)) (k : List Char) (v : β) :
    dictGet (dictInsert m k v) k = some v := by
  induction m with
  | nil => simp [dictInsert, dictGet]
  | cons p rest ih =>
    obtain ⟨a, b⟩ := p
    by_cases ha : a = k
    · simp [dictInsert, dictGet, ha]
    · simp [dictInsert, dictGet, ha, ih]

theorem dictGet_dictInsert_ne {β : Type} (m : List (List Char × β)) (k k' : List Char) (v : β)
    (h : k' ≠ k) : dictGet (dictInsert m k v) k' = dictGet m k' := by
  have h' : ¬(k = k') := fun hh => h hh.symm
  induction m with
  | nil => simp [dictInsert, dictGet, h']
  | cons p rest ih =>
    obtain ⟨a, b⟩ := p
    by_cases ha : a = k
    · subst ha
      simp [dictInsert, dictGet, h']
    · simp [dictInsert, dictGet, ha, ih]

theorem length_dictInsert_le {β : Type} (m : List (List Char × β)) (k : List Char) (v : β) :
    (dictInsert m k v).length ≤ m.length + 1 := by
  induction m with
  | nil => simp [dictInsert]
  | cons p rest ih =>
    obtain ⟨a, b⟩ := p
    by_cases ha : a = k
    · simp [dictInsert, ha]
    · simp only [dictInsert, if_neg ha, List.length_cons]
      omega

theorem length_dictInsert_of_isSome {β : Type} (m : List (List Char × β)) (k : List Char)
    (v : β) (h : (dictGet m k).isSome) : (dictInsert m k v).length = m.length := by
  induction m with
  | nil => simp [dictGet] at h
  | cons p rest ih =>
    obtain ⟨a, b⟩ := p
    by_cases ha : a = k
    · simp [dictInsert, ha]
    · simp only [dictGet, if_neg ha] at h
      simp [dictInsert, if_neg ha, ih h]

theorem mem_dictKeys_dictInsert {β : Type} (m : List (List Char × β)) (k a : List Char) (v : β) :
    a ∈ dictKeys (dictInsert m k v) ↔ a ∈ dictKeys m ∨ a = k := by
  induction m with
  | nil => simp [dictInsert, dictKeys]
  | cons p rest ih =>
    obtain ⟨bk, bv⟩ := p
    by_cases hb : bk = k
    · subst hb
      have hrw : dictInsert ((bk, bv) :: rest) bk v = (bk, v) :: rest := by
        simp [dictInsert]
      rw [hrw]
      simp only [dictKeys, List.map_cons, List.mem_cons]
      tauto
    · simp only [dictInsert, if_neg hb, dictKeys, List.map_cons, List.mem_cons]
      simp only [dictKeys] at ih
      rw [ih]
      tauto

theorem nodup_dictKeys_dictInsert {β : Type} (m : List (List Char × β)) (k : List Char) (v : β)
    (h : (dictKeys m).Nodup) : (dictKeys (dictInsert m k v)).Nodup := by
  induction m with
  | nil => simp [dictInsert, dictKeys]
  | cons p rest ih =>
    obtain ⟨bk, bv⟩ := p
    simp only [dictKeys, List.map_cons, List.nodup_cons] at h
    by_cases hb : bk = k
    · subst hb
      have hrw : dictInsert ((bk, bv) :: rest) bk v = (bk, v) :: rest := by
        simp [dictInsert]
      rw [hrw]
      simp only [dictKeys, List.map_cons, List.nodup_cons]
      exact ⟨h.1, h.2⟩
    · have h2 := ih h.2
      simp only [dictInsert, if_neg hb, dictKeys, List.map_cons, List.nodup_cons]
      refine ⟨?_, h2⟩
      intro hmem
      have := (mem_dictKeys_dictInsert rest k bk v).mp hmem
      rcases this with h1 | h1
      · exact h.1 h1
      · exact hb h1

theorem mem_dictKeys_of_isSome {β : Type} (m : List (List Char × β)) (k : List Char)
    (h : (dictGet m k).isSome) : k ∈ dictKeys m := by
  induction m with
  | nil => simp [dictGet] at h
  | cons p rest ih =>
    obtain ⟨a, b⟩ := p
    by_cases ha : a = k
    · simp [dictKeys, ha]
    · simp only [dictGet, if_neg ha] at h
      simp only [dictKeys, List.map_cons, List.mem_cons]
      exact Or.inr (ih h)

theorem containsKeyJ_isSome (fields : List (List Char × JValue)) (k : List Char)
    (h : containsKeyJ fields k = true) : (dictGet fields k).isSome := by
  induction fields with
  | nil => simp [containsKeyJ] at h
  | cons p rest ih =>
    obtain ⟨a, b⟩ := p
    by_cases ha : a = k
    · simp [dictGet, ha]
    · simp only [containsKeyJ, List.any_cons, Bool.or_eq_true, decide_eq_true_eq] at h
      rcases h with h1 | h1
      · exact absurd h1 ha
      · simpa [dictGet, ha] using ih h1

/-! ## Lemmas about line splitting and joining -/

theorem splitLines_ne_nil (s : List Char) : splitLines s ≠ [] := by
  cases s with
  | nil => simp [splitLines]
  | cons c rest =>
    by_cases h : c = '\n'
    · simp [splitLines, h]
    · simp only [splitLines, if_neg h]
      cases splitLines rest <;> simp

theorem splitLines_cons_exists (s : List Char) : ∃ l ls, splitLines s = l :: ls := by
  cases hr : splitLines s with
  | nil => exact absurd hr (splitLines_ne_nil s)
  | cons l ls => exact ⟨l, ls, rfl⟩

theorem splitLines_append_newline (xs ys : List Char) :
    splitLines (xs ++ '\n' :: ys) = splitLines xs ++ splitLines ys := by
  induction xs with
  | nil => simp [splitLines]
  | cons c rest ih =>
    by_cases h : c = '\n'
    · simp [splitLines, h, ih]
    · obtain ⟨l, ls, hls⟩ := splitLines_cons_exists rest
      have e1 : splitLines ((c :: rest) ++ '\n' :: ys)
          = match splitLines (rest ++ '\n' :: ys) with
            | [] => [[c]]
            | a :: bs => (c :: a) :: bs := by
        rw [List.cons_append]
        simp only [splitLines, if_neg h]
      have e2 : splitLines (c :: rest)
          = match splitLines rest with
            | [] => [[c]]
            | a :: bs => (c :: a) :: bs := by
        simp only [splitLines, if_neg h]
      rw [e1, ih, hls, e2, hls]
      rfl

theorem joinLines_cons_of_ne_nil (l : List Char) (L : List (List Char)) (h : L ≠ []) :
    joinLines (l :: L) = l ++ '\n' :: joinLines L := by
  cases L with
  | nil => exact absurd rfl h
  | cons l2 ls => rfl

theorem joinLines_splitLines (s : List Char) : joinLines (splitLines s) = s := by
  induction s with
  | nil => simp [splitLines, joinLines]
  | cons c rest ih =>
    obtain ⟨l, ls, hls⟩ := splitLines_cons_exists rest
    by_cases h : c = '\n'
    · subst h
      have e : splitLines ('\n' :: rest) = [] :: splitLines rest := by
        simp [splitLines]
      rw [e, joinLines_cons_of_ne_nil _ _ (splitLines_ne_nil rest), ih]
      simp
    · have e : splitLines (c :: rest) = (c :: l) :: ls := by
        simp only [splitLines, if_neg h, hls]
      rw [e]
      rw [hls] at ih
      cases ls with
      | nil =>
        have hl : l = rest := by simpa [joinLines] using ih
        simp [joinLines, hl]
      | cons l2 ls2 =>
        rw [joinLines_cons_of_ne_nil _ _ (by simp)]
        rw [joinLines_cons_of_ne_nil _ _ (by simp)] at ih
        rw [List.cons_append]
        rw [ih]

theorem splitLines_no_newline (l : List Char) (h : l.contains '\n' = false) :
    splitLines l = [l] := by
  induction l with
  | nil => simp [splitLines]
  | cons c rest ih =>
    simp only [List.contains_cons, Bool.or_eq_false_iff] at h
    have hc : ¬(c = '\n') := by
      intro hc
      subst hc
      simp at h
    have hr := ih h.2
    simp [splitLines, hc, hr]

theorem splitLines_joinLines (L : List (List Char)) (hne : L ≠ [])
    (h : ∀ l ∈ L, l.contains '\n' = false) : splitLines (joinLines L) = L := by
  induction L with
  | nil => exact absurd rfl hne
  | cons l ls ih =>
    cases ls with
    | nil =>
      simp only [joinLines]
      exact splitLines_no_newline l (h l (by simp))
    | cons l2 ls2 =>
      rw [joinLines_cons_of_ne_nil _ _ (by simp)]
      rw [splitLines_append_newline]
      rw [splitLines_no_newline l (h l (by simp))]
      rw [ih (by simp) (fun x hx => h x (List.mem_cons_of_mem _ hx))]
      simp

/-! ## Lemmas about the card checks -/

theorem checkCards_error_of_bad (cards : List JValue) (c : JValue) (hc : c ∈ cards)
    (hbad : isValidCard c = false) : ∃ e, checkCards cards = Except.error e := by
  induction cards with
  | nil => simp at hc
  | cons a rest ih =>
    by_cases ha : isValidCard a
    · rcases List.mem_cons.mp hc with h1 | h1
      · subst h1
        rw [ha] at hbad
        simp at hbad
      · obtain ⟨e, he⟩ := ih h1
        exact ⟨e, by simp [checkCards, ha, he]⟩
    · exact ⟨"Invalid flashcard format".data, by simp [checkCards, ha]⟩

theorem checkCards_ok_forall (cards : List JValue) (u : Unit)
    (h : checkCards cards = Except.ok u) : ∀ c ∈ cards, isValidCard c = true := by
  induction cards with
  | nil => simp
  | cons a rest ih =>
    by_cases ha : isValidCard a
    · intro c hc
      rcases List.mem_cons.mp hc with h1 | h1
      · subst h1; exact ha
      · exact ih (by simpa [checkCards, ha] using h) c h1
    · simp [checkCards, ha] at h

/-! ## Lemmas about the generation fold -/

theorem genFold_append (gw : Gateway) (mats : List Char) (xs ys : List (List Char)) :
    ∀ (n : Nat) (m : FlashDict),
      genFold gw mats n (xs ++ ys) m
        = genFold gw mats (n + xs.length) ys (genFold gw mats n xs m) := by
  induction xs with
  | nil => intro n m; simp [genFold]
  | cons c rest ih =>
    intro n m
    simp only [List.cons_append, genFold, List.length_cons, List.append_eq]
    rw [ih]
    have : n + 1 + rest.length = n + (rest.length + 1) := by omega
    rw [this]

theorem genFold_dictGet (gw : Gateway) (mats : List Char) (k : List Char) :
    ∀ (l : List (List Char)) (n : Nat) (m : FlashDict),
      dictGet (genFold gw mats n l m) k
        = match lastGenCall n l k with
          | some j => some (genCards gw j mats k)
          | none => dictGet m k := by
  intro l
  induction l with
  | nil => intro n m; simp [genFold, lastGenCall]
  | cons c rest ih =>
    intro n m
    simp only [genFold, lastGenCall]
    rw [ih]
    cases hlast : lastGenCall (n + 1) rest k with
    | some j => simp
    | none =>
      by_cases hc : c = k
      · subst hc
        simp [dictGet_dictInsert_self]
      · simp [hc, dictGet_dictInsert_ne _ _ _ _ (fun hh => hc hh.symm)]

theorem genFold_length_le (gw : Gateway) (mats : List Char) :
    ∀ (l : List (List Char)) (n : Nat) (m : FlashDict),
      (genFold gw mats n l m).length ≤ m.length + l.length := by
  intro l
  induction l with
  | nil => intro n m; simp [genFold]
  | cons c rest ih =>
    intro n m
    simp only [genFold, List.length_cons]
    calc (genFold gw mats (n + 1) rest (dictInsert m c (genCards gw n mats c))).length
        ≤ (dictInsert m c (genCards gw n mats c)).length + rest.length := ih _ _
      _ ≤ m.length + 1 + rest.length := by
          have := length_dictInsert_le m c (genCards gw n mats c)
          omega
      _ = m.length + (rest.length + 1) := by omega

theorem genFold_isSome_mono (gw : Gateway) (mats : List Char) (k : List Char)
    (l : List (List Char)) (n : Nat) (m : FlashDict) (h : (dictGet m k).isSome) :
    (dictGet (genFold gw mats n l m) k).isSome := by
  rw [genFold_dictGet]
  cases lastGenCall n l k with
  | some j => simp
  | none => simpa using h

theorem nodup_dictKeys_genFold (gw : Gateway) (mats : List Char) :
    ∀ (l : List (List Char)) (n : Nat) (m : FlashDict),
      (dictKeys m).Nodup → (dictKeys (genFold gw mats n l m)).Nodup := by
  intro l
  induction l with
  | nil => intro n m h; simpa [genFold] using h
  | cons c rest ih =>
    intro n m h
    simp only [genFold]
    exact ih _ _ (nodup_dictKeys_dictInsert m c _ h)

theorem genFold_length_lt_of_mem_isSome (gw : Gateway) (mats : List Char) (k : List Char) :
    ∀ (l : List (List Char)) (n : Nat) (m : FlashDict),
      k ∈ l → (dictGet m k).isSome →
      (genFold gw mats n l m).length < m.length + l.length := by
  intro l
  induction l with
  | nil => intro n m hmem _; simp at hmem
  | cons c rest ih =>
    intro n m hmem hsome
    simp only [genFold, List.length_cons]
    rcases List.mem_cons.mp hmem with h1 | h1
    · rw [h1] at hsome
      have heq : (dictInsert m c (genCards gw n mats c)).length = m.length :=
        length_dictInsert_of_isSome m c _ hsome
      have hle := genFold_length_le gw mats rest (n + 1) (dictInsert m c (genCards gw n mats c))
      omega
    · have hsome' : (dictGet (dictInsert m c (genCards gw n mats c)) k).isSome := by
        by_cases hc : c = k
        · subst hc
          rw [dictGet_dictInsert_self]; rfl
        · rw [dictGet_dictInsert_ne _ _ _ _ (fun hh => hc hh.symm)]
          exact hsome
      have hlt := ih (n + 1) (dictInsert m c (genCards gw n mats c)) h1 hsome'
      have hle := length_dictInsert_le m c (genCards gw n mats c)
      omega

theorem genFold_length_lt_of_count (gw : Gateway) (mats : List Char) :
    ∀ (l : List (List Char)) (name : List Char), 2 ≤ l.count name →
      ∀ (n : Nat) (m : FlashDict), (genFold gw mats n l m).length < m.length + l.length := by
  intro l
  induction l with
  | nil => intro name h; simp at h
  | cons c rest ih =>
    intro name h n m
    simp only [genFold, List.length_cons]
    have hle := length_dictInsert_le m c (genCards gw n mats c)
    by_cases hc : c = name
    · subst hc
      have h1 : 1 ≤ rest.count c := by
        rw [List.count_cons_self] at h
        omega
      have hmem : c ∈ rest := by
        rw [← List.count_pos_iff]
        omega
      have hsome : (dictGet (dictInsert m c (genCards gw n mats c)) c).isSome := by
        rw [dictGet_dictInsert_self]; rfl
      have hlt := genFold_length_lt_of_mem_isSome gw mats c rest (n + 1)
        (dictInsert m c (genCards gw n mats c)) hmem hsome
      omega
    · have h1 : 2 ≤ rest.count name := by
        rw [List.count_cons_of_ne (fun hh => hc hh.symm)] at h
        exact h
      have hlt := ih name h1 (n + 1) (dictInsert m c (genCards gw n mats c))
      omega

theorem genFold_length_lt_of_dup (gw : Gateway) (mats : List Char)
    (cats : List (List Char)) (name : List Char) (hdup : 2 ≤ cats.count name)
    (n : Nat) : (genFold gw mats n cats []).length < cats.length := by
  have := genFold_length_lt_of_count gw mats cats name hdup n []
  simpa using this

theorem lastGenCall_isSome_of_mem (k : List Char) :
    ∀ (l : List (List Char)) (n : Nat), k ∈ l → lastGenCall n l k ≠ none := by
  intro l
  induction l with
  | nil => intro n h; simp at h
  | cons c rest ih =>
    intro n hmem
    simp only [lastGenCall]
    rcases List.mem_cons.mp hmem with h1 | h1
    · cases hl : lastGenCall (n + 1) rest k with
      | some j => simp
      | none => simp [h1.symm]
    · cases hl : lastGenCall (n + 1) rest k with
      | some j => simp
      | none => exact absurd hl (ih (n + 1) h1)

theorem count_eq_one_of_nodup_mem :
    ∀ (l : List (List Char)) (k : List Char), l.Nodup → k ∈ l → l.count k = 1 := by
  intro l
  induction l with
  | nil => intro k _ hk; simp at hk
  | cons a rest ih =>
    intro k hnd hk
    simp only [List.nodup_cons] at hnd
    rcases List.mem_cons.mp hk with h1 | h1
    · subst h1
      rw [List.count_cons_self, List.count_eq_zero.mpr hnd.1]
    · have hne : k ≠ a := by
        intro hh
        subst hh
        exact hnd.1 h1
      rw [List.count_cons_of_ne hne, ih k hnd.2 h1]

/-! ## Lemmas about the workflow driver -/

theorem runLoop_zero (gw : Gateway) (node : Node) (s : RunState) (n : Nat) :
    runLoop gw 0 node s n = Except.error RunError.recursionLimit := rfl

/-- Running the category loop from `select_next_category` with enough fuel:
each category in queue order gets one `create_flashcards` superstep, the
flashcard mapping accumulates by `genFold`, and the machine halts with the
queue empty and the `end` flag set. -/
theorem runLoop_selectNext_ok (gw : Gateway) (mats : List Char) :
    ∀ (cats : List (List Char)) (fuel n : Nat) (fc : FlashDict) (cur : List Char) (b : Bool),
      2 * cats.length + 1 ≤ fuel →
      runLoop gw fuel Node.selectNext ⟨mats, cats, fc, cur, b⟩ n =
        Except.ok (⟨mats, [], genFold gw mats n cats fc, [], true⟩, loopTrace cur cats) := by
  intro cats
  induction cats with
  | nil =>
    intro fuel n fc cur b hfuel
    cases fuel with
    | zero => omega
    | succ f => rfl
  | cons c rest ih =>
    intro fuel n fc cur b hfuel
    simp only [List.length_cons] at hfuel
    cases fuel with
    | zero => omega
    | succ f =>
      cases f with
      | zero => omega
      | succ g =>
        have hin := ih g (n + 1) (dictInsert fc c (genCards gw n mats c)) c false (by omega)
        calc runLoop gw (g + 1 + 1) Node.selectNext ⟨mats, c :: rest, fc, cur, b⟩ n
            = match (match runLoop gw g Node.selectNext
                  ⟨mats, rest, dictInsert fc c (genCards gw n mats c), c, false⟩ (n + 1) with
                | Except.ok (fin, tr) =>
                  (Except.ok (fin, (Node.createFlashcards, c) :: tr) :
                    Except RunError (RunState × List (Node × List Char)))
                | Except.error e => Except.error e) with
              | Except.ok (fin, tr) => Except.ok (fin, (Node.selectNext, cur) :: tr)
              | Except.error e => Except.error e := rfl
          _ = Except.ok (⟨mats, [], genFold gw mats n (c :: rest) fc, [], true⟩,
                loopTrace cur (c :: rest)) := by rw [hin]; rfl

/-- Running the category loop with too little fuel for the queue always hits
the recursion limit. -/
theorem runLoop_selectNext_err (gw : Gateway) (mats : List Char) :
    ∀ (cats : List (List Char)) (fuel n : Nat) (fc : FlashDict) (cur : List Char) (b : Bool),
      fuel ≤ 2 * cats.length →
      runLoop gw fuel Node.selectNext ⟨mats, cats, fc, cur, b⟩ n =
        Except.error RunError.recursionLimit := by
  intro cats
  induction cats with
  | nil =>
    intro fuel n fc cur b hfuel
    have : fuel = 0 := by simpa using hfuel
    subst this
    rfl
  | cons c rest ih =>
    intro fuel n fc cur b hfuel
    simp only [List.length_cons] at hfuel
    cases fuel with
    | zero => rfl
    | succ f =>
      cases f with
      | zero => rfl
      | succ g =>
        have hin := ih g (n + 1) (dictInsert fc c (genCards gw n mats c)) c false (by omega)
        calc runLoop gw (g + 1 + 1) Node.selectNext ⟨mats, c :: rest, fc, cur, b⟩ n
            = match (match runLoop gw g Node.selectNext
                  ⟨mats, rest, dictInsert fc c (genCards gw n mats c), c, false⟩ (n + 1) with
                | Except.ok (fin, tr) =>
                  (Except.ok (fin, (Node.createFlashcards, c) :: tr) :
                    Except RunError (RunState × List (Node × List Char)))
                | Except.error e => Except.error e) with
              | Except.ok (fin, tr) => Except.ok (fin, (Node.selectNext, cur) :: tr)
              | Except.error e => Except.error e := rfl
          _ = Except.error RunError.recursionLimit := by rw [hin]

/-- One unfolding of `invokeWorkflow`: the planner superstep runs first and
hands a queue of extracted categories to the category loop with 24 remaining
supersteps. -/
theorem invokeWorkflow_eq (gw : Gateway) (mats : List Char) :
    invokeWorkflow gw mats =
      match runLoop gw 24 Node.selectNext
          ⟨mats, extractCategories (gw 0 (categoriesPromptFull mats)), [], [], false⟩ 1 with
      | Except.ok (fin, tr) =>
        Except.ok (fin, (Node.createCategories, ([] : List Char)) :: tr)
      | Except.error e => Except.error e := rfl

/-- A successful run: when the planner yields at most 11 categories the whole
workflow reaches END, with the flashcard mapping given by `genFold`. -/
theorem invokeWorkflow_ok (gw : Gateway) (mats : List Char) (cats : List (List Char))
    (hcats : extractCategories (gw 0 (categoriesPromptFull mats)) = cats)
    (hlen : cats.length ≤ 11) :
    invokeWorkflow gw mats =
      Except.ok (⟨mats, [], genFold gw mats 1 cats [], [], true⟩,
        (Node.createCategories, ([] : List Char)) :: loopTrace [] cats) := by
  rw [invokeWorkflow_eq, hcats]
  rw [runLoop_selectNext_ok gw mats cats 24 1 [] [] false (by omega)]

/-- A failing run: when the planner yields 12 or more categories the
25-superstep ceiling is hit. -/
theorem invokeWorkflow_err (gw : Gateway) (mats : List Char) (cats : List (List Char))
    (hcats : extractCategories (gw 0 (categoriesPromptFull mats)) = cats)
    (hlen : 12 ≤ cats.length) :
    invokeWorkflow gw mats = Except.error RunError.recursionLimit := by
  rw [invokeWorkflow_eq, hcats]
  rw [runLoop_selectNext_err gw mats cats 24 1 [] [] false (by omega)]

theorem genList_cons_other (e : Node × List Char) (tr : List (Node × List Char))
    (h : (e.1 == Node.createFlashcards) = false) : genList (e :: tr) = genList tr := by
  simp [genList, List.filter_cons, h]

theorem genList_loopTrace (cats : List (List Char)) :
    ∀ (cur : List Char), genList (loopTrace cur cats) = cats := by
  induction cats with
  | nil => intro cur; simp [loopTrace, genList]
  | cons c rest ih =>
    intro cur
    simp only [loopTrace]
    rw [genList_cons_other (Node.selectNext, cur) _ (by rfl)]
    have e : genList ((Node.createFlashcards, c) :: loopTrace c rest)
        = c :: genList (loopTrace c rest) := by
      simp [genList, List.filter_cons]
    rw [e, ih c]

/-! ## Fence-stripping lemmas -/

theorem dropWhile_ticks_headed (X : List Char) :
    List.dropWhile isPyWs ("```".data ++ X) = "```".data ++ X := rfl

theorem pyStrip_fenceWrap (t : List Char) : pyStrip (fenceWrap t) = fenceWrap t := by
  have h1 : List.dropWhile isPyWs (fenceWrap t) = fenceWrap t := rfl
  have hrev : (fenceWrap t).reverse
      = "```".data ++ ('\n' :: (t.reverse ++ ('\n' :: "```".data))) := by
    simp only [fenceWrap, List.reverse_append]
    rfl
  have h2 : List.dropWhile isPyWs (fenceWrap t).reverse = (fenceWrap t).reverse := by
    rw [hrev]
    rfl
  unfold pyStrip
  rw [h1, h2, List.reverse_reverse]

theorem pyStartswith_ticks_fenceWrap (t : List Char) :
    pyStartswith ticks (fenceWrap t) = true := rfl

theorem pyEndswith_ticks_fenceWrap (t : List Char) :
    pyEndswith ticks (fenceWrap t) = true := by
  have hrev : (fenceWrap t).reverse
      = "```".data ++ ('\n' :: (t.reverse ++ ('\n' :: "```".data))) := by
    simp only [fenceWrap, List.reverse_append]
    rfl
  unfold pyEndswith List.isSuffixOf
  rw [hrev]
  rfl

theorem splitLines_fenceWrap (t : List Char) :
    splitLines (fenceWrap t) = "```".data :: (splitLines t ++ ["```".data]) := by
  have e1 : fenceWrap t = "```".data ++ '\n' :: (t ++ '\n' :: "```".data) := rfl
  rw [e1, splitLines_append_newline, splitLines_append_newline]
  rfl

theorem validateContent_fenceWrap (t : List Char) :
    validateContent (fenceWrap t) = pyStrip t := by
  unfold validateContent
  rw [pyStrip_fenceWrap, pyStartswith_ticks_fenceWrap, pyEndswith_ticks_fenceWrap]
  simp only [Bool.and_self, if_true]
  rw [splitLines_fenceWrap]
  simp only [List.drop_succ_cons, List.drop_zero]
  rw [List.dropLast_concat]
  rw [joinLines_splitLines]

theorem validateContent_unfenced_eq (t : List Char)
    (h : (pyStartswith ticks (pyStrip t) && pyEndswith ticks (pyStrip t)) = false) :
    validateContent t = pyStrip t := by
  unfold validateContent
  rw [h]
  rfl

/-! ## Claim theorems -/

/-- Claim C1 (confirmed): for every raw model response text, the Output
Validator returns a list without raising: after trimming and best-effort
fence removal (`validateContent`), if JSON parsing fails, or the top-level
value is not a list, or some element is not a mapping containing the keys
`question` and `answer`, the validator returns the empty list (the raised
`JSONDecodeError`/`ValueError` is caught by the except-handler, modelled by
the `Except.error` branch of `parseFlashcards`).  Totality of
`validateFlashcards` models the guarantee that no exception escapes. -/
theorem validator_fallback_empty (raw : List Char)
    (h : ∀ cards, jsonParse (validateContent raw) = some (JValue.jarr cards) →
      ∃ c ∈ cards, isValidCard c = false) :
    validateFlashcards raw = [] := by
  unfold validateFlashcards parseFlashcards
  cases hj : jsonParse (validateContent raw) with
  | none => rfl
  | some v =>
    cases v with
    | jarr cards =>
      obtain ⟨c, hc, hbad⟩ := h cards hj
      obtain ⟨e, he⟩ := checkCards_error_of_bad cards c hc hbad
      show (match (match checkCards cards with
          | Except.ok _ => (Except.ok cards : Except (List Char) (List JValue))
          | Except.error e => Except.error e) with
        | Except.ok cs => cs
        | Except.error _ => ([] : List JValue)) = []
      rw [he]
    | null => rfl
    | jbool b => rfl
    | jnum x => rfl
    | jstr x => rfl
    | jobj f => rfl

/-- Witness for C1: a non-JSON response is mapped to the empty list. -/
theorem validator_fallback_empty_witness : validateFlashcards ("oops".data) = [] := by
  apply validator_fallback_empty
  intro cards hc
  rw [show jsonParse (validateContent ("oops".data)) = none from rfl] at hc
  exact absurd hc (by simp)

/-- Claim C3 (counterexample): the claim states that every flashcard in a
successfully validated (non-fallback) sequence has a non-empty question and
answer string.  The check of lines 262-268 only tests key membership, so the
response `[{"question": "", "answer": ""}]` passes validation and yields a
card whose question and answer are the empty string. -/
theorem validator_accepts_empty_question :
    (∃ cards, parseFlashcards (validateContent emptyFieldsResponse) = Except.ok cards) ∧
    validateFlashcards emptyFieldsResponse = [emptyFieldsCard] ∧
    specNonEmptyQA emptyFieldsCard = false :=
  ⟨⟨[emptyFieldsCard], rfl⟩, rfl, rfl⟩

/-- Claim C3 (amended, corrected): whenever validation succeeds, every
flashcard in the returned (non-fallback) sequence is a mapping containing
the keys `question` and `answer`; their values are not inspected and may be
empty or non-string. -/
theorem validator_success_keys (raw : List Char) (cards : List JValue)
    (h : parseFlashcards (validateContent raw) = Except.ok cards) :
    validateFlashcards raw = cards ∧
    ∀ card ∈ cards, ∃ fields, card = JValue.jobj fields ∧
      (dictGet fields ("question".data)).isSome ∧
      (dictGet fields ("answer".data)).isSome := by
  have hvalid : ∀ c ∈ cards, isValidCard c = true := by
    unfold parseFlashcards at h
    cases hj : jsonParse (validateContent raw) with
    | none =>
      rw [hj] at h
      exact Except.noConfusion h
    | some v =>
      rw [hj] at h
      cases v with
      | jarr cs =>
        cases hch : checkCards cs with
        | ok u =>
          have hcs : cs = cards := by
            have h2 : (match checkCards cs with
              | Except.ok _ => (Except.ok cs : Except (List Char) (List JValue))
              | Except.error e => Except.error e) = Except.ok cards := h
            rw [hch] at h2
            exact (Except.ok.inj h2)
          subst hcs
          exact checkCards_ok_forall cs u hch
        | error e =>
          have h2 : (match checkCards cs with
            | Except.ok _ => (Except.ok cs : Except (List Char) (List JValue))
            | Except.error e => Except.error e) = Except.ok cards := h
          rw [hch] at h2
          exact Except.noConfusion h2
      | null => exact Except.noConfusion h
      | jbool b => exact Except.noConfusion h
      | jnum x => exact Except.noConfusion h
      | jstr x => exact Except.noConfusion h
      | jobj f => exact Except.noConfusion h
  constructor
  · unfold validateFlashcards
    rw [h]
  · intro card hcard
    have hv := hvalid card hcard
    cases card with
    | jobj fields =>
      simp only [isValidCard, Bool.and_eq_true] at hv
      exact ⟨fields, rfl, containsKeyJ_isSome _ _ hv.1, containsKeyJ_isSome _ _ hv.2⟩
    | null => simp [isValidCard] at hv
    | jbool b => simp [isValidCard] at hv
    | jnum x => simp [isValidCard] at hv
    | jstr x => simp [isValidCard] at hv
    | jarr x => simp [isValidCard] at hv

/-- Witness for the amended C3: a well-formed response yields exactly its
cards, each an object with both keys present. -/
theorem validator_success_keys_witness :
    validateFlashcards goodResponse = [goodCard] ∧
    ∀ card ∈ [goodCard], ∃ fields, card = JValue.jobj fields ∧
      (dictGet fields ("question".data)).isSome ∧
      (dictGet fields ("answer".data)).isSome :=
  validator_success_keys goodResponse [goodCard] rfl

/-- Claim C8 (counterexample): the claim states that wrapping any text in a
three-backtick fence line before and after parses identically to the bare
text.  It fails for a text that itself starts and ends with a fence: the
code strips only one fence layer, so the inner still-fenced text then fails
JSON parsing, while the bare text has its own fence stripped and parses. -/
theorem fence_strip_cex :
    validateFlashcards selfFencedResponse = [qaCard] ∧
    validateFlashcards (fenceWrap selfFencedResponse) = [] ∧
    validateFlashcards (fenceWrap selfFencedResponse) ≠ validateFlashcards selfFencedResponse := by
  refine ⟨rfl, rfl, ?_⟩
  intro hcontra
  rw [show validateFlashcards (fenceWrap selfFencedResponse) = [] from rfl] at hcontra
  rw [show validateFlashcards selfFencedResponse = [qaCard] from rfl] at hcontra
  exact List.noConfusion hcontra

/-- Claim C8 (amended, corrected): for every text whose trimmed form does
not itself both start and end with a three-backtick fence, the Validator
applied to the fence-wrapped text produces the same result as the Validator
applied to the text alone. -/
theorem fence_strip_equiv (t : List Char)
    (h : (pyStartswith ticks (pyStrip t) && pyEndswith ticks (pyStrip t)) = false) :
    validateFlashcards (fenceWrap t) = validateFlashcards t := by
  unfold validateFlashcards
  rw [validateContent_fenceWrap, validateContent_unfenced_eq t h]

/-- Witness for the amended C8: a plain JSON response parses identically
with and without the surrounding fence. -/
theorem fence_strip_equiv_witness :
    validateFlashcards (fenceWrap plainResponse) = validateFlashcards plainResponse :=
  fence_strip_equiv plainResponse rfl

/-- Claim C6 (confirmed): the `Selecting` transition pops the front category
into `current_category` with `done=false` and proceeds to the Generating
node when the queue is non-empty, and sets `current_category` to the empty
string with `done=true` and halts (END edge) when the queue is empty; the
flashcards mapping (and the rest of the state) is preserved unchanged in
both cases. -/
theorem selecting_transition_rule (gw : Gateway) (n : Nat) (s : RunState) :
    (s.categories = [] →
      stepNode gw s n Node.selectNext
        = ({ s with categories := [], current_category := [], endFlag := true }, n, none)) ∧
    (∀ c rest, s.categories = c :: rest →
      stepNode gw s n Node.selectNext
        = ({ s with categories := rest, current_category := c, endFlag := false }, n,
            some Node.createFlashcards)) := by
  obtain ⟨mats, cats, fc, cur, b⟩ := s
  constructor
  · intro h
    simp only at h
    subst h
    rfl
  · intro c rest h
    simp only at h
    subst h
    rfl

/-- Witness for C6: both branches of the Selecting rule at concrete
states. -/
theorem selecting_transition_rule_witness :
    stepNode gwStub ⟨"m".data, [], [], "c".data, false⟩ 0 Node.selectNext
      = (⟨"m".data, [], [], [], true⟩, 0, none) ∧
    stepNode gwStub ⟨"m".data, ["x".data], [], [], false⟩ 0 Node.selectNext
      = (⟨"m".data, [], [], "x".data, false⟩, 0, some Node.createFlashcards) :=
  ⟨(selecting_transition_rule gwStub 0 ⟨"m".data, [], [], "c".data, false⟩).1 rfl,
   (selecting_transition_rule gwStub 0 ⟨"m".data, ["x".data], [], [], false⟩).2
     ("x".data) [] rfl⟩

/-- Claim C7 (confirmed): the Category Planner sets `categories` to exactly
the gateway response split into lines, each line trimmed, blank lines
discarded, preserving line order and keeping duplicates (no deduplication);
the rest of the state is unchanged. -/
theorem planner_splits_lines (gw : Gateway) (n : Nat) (s : RunState)
    (lineList : List (List Char)) (hne : lineList ≠ [])
    (hnl : ∀ l ∈ lineList, l.contains '\n' = false)
    (hresp : gw n (categoriesPromptFull s.study_materials) = joinLines lineList) :
    create_categories gw n s
      = { s with categories := (lineList.map pyStrip).filter (fun l => !l.isEmpty) } := by
  unfold create_categories extractCategories
  rw [hresp, splitLines_joinLines lineList hne hnl]

/-- Witness for C7: a response with surrounding spaces, one blank line and a
duplicated name yields the trimmed names in order, blank dropped, duplicate
kept. -/
theorem planner_splits_lines_witness :
    create_categories gwPlanner 0 (initialState ("m".data))
      = { initialState ("m".data) with
          categories := ["Alpha".data, "Beta".data, "Alpha".data] } := by
  have h := planner_splits_lines gwPlanner 0 (initialState ("m".data))
    [" Alpha ".data, [], "Beta".data, "Alpha".data] (by simp) (by decide) rfl
  rw [h]
  rfl

/-- Claim C9 (confirmed): a scoped Generation Stage invocation inserts or
overwrites exactly the flashcards-mapping entry for `current_category`
(with the validated cards of its own gateway call) and preserves every
other entry of the mapping, as well as the other state fields. -/
theorem generation_stage_frame (gw : Gateway) (n : Nat) (s : RunState) :
    dictGet (create_flashcards_for_category gw n s).flashcards s.current_category
      = some (genCards gw n s.study_materials s.current_category) ∧
    (∀ k, k ≠ s.current_category →
      dictGet (create_flashcards_for_category gw n s).flashcards k
        = dictGet s.flashcards k) ∧
    (create_flashcards_for_category gw n s).categories = s.categories ∧
    (create_flashcards_for_category gw n s).study_materials = s.study_materials ∧
    (create_flashcards_for_category gw n s).current_category = s.current_category := by
  refine ⟨?_, ?_, rfl, rfl, rfl⟩
  · show dictGet (dictInsert s.flashcards s.current_category
        (genCards gw n s.study_materials s.current_category)) s.current_category = _
    exact dictGet_dictInsert_self _ _ _
  · intro k hk
    show dictGet (dictInsert s.flashcards s.current_category
        (genCards gw n s.study_materials s.current_category)) k = _
    exact dictGet_dictInsert_ne _ _ _ _ hk

/-- Witness for C9: generating for category `Cur` sets its entry and leaves
the pre-existing entry for `Other` untouched. -/
theorem generation_stage_frame_witness :
    dictGet (create_flashcards_for_category gwStub 5 frameState).flashcards ("Cur".data)
      = some (genCards gwStub 5 ("m".data) ("Cur".data)) ∧
    dictGet (create_flashcards_for_category gwStub 5 frameState).flashcards ("Other".data)
      = some [JValue.null] :=
  ⟨(generation_stage_frame gwStub 5 frameState).1,
   by
     have h := (generation_stage_frame gwStub 5 frameState).2.1 ("Other".data) (by decide)
     rw [h]
     rfl⟩

/-- Claim C2 (counterexample): the claim states the entry point never raises
to its caller and that empty or wrong-typed materials produce an error
result.  The guard at lines 322-323 runs before the try-block, so an empty
string makes `generate_flashcards` raise `ValueError` (modelled as
`Except.error`) instead of returning a result record. -/
theorem generate_raises_on_empty_materials :
    generate_flashcards gwStub (PyMaterials.pystr [])
      = Except.error (PyException.valueError ("Invalid study materials provided".data)) := rfl

/-- Claim C2 (amended, corrected): empty or non-string materials make the
entry point raise `ValueError` before any model call (the result does not
depend on the gateway); for every other input the caller receives a result
record with a flashcard collection and an optional error string, and no
exception propagates (every failure inside the try-block is converted into
an error result by the handler of lines 342-347). -/
theorem generate_result_or_input_error (gw : Gateway) (inp : PyMaterials) :
    (materialsBad inp = true →
      generate_flashcards gw inp
        = Except.error (PyException.valueError ("Invalid study materials provided".data))) ∧
    (materialsBad inp = false →
      ∃ fc err, generate_flashcards gw inp = Except.ok ⟨fc, err⟩) := by
  cases inp with
  | nonString =>
    constructor
    · intro _
      rfl
    · intro h
      simp [materialsBad] at h
  | pystr s =>
    by_cases hs : s = []
    · subst hs
      constructor
      · intro _
        rfl
      · intro h
        simp [materialsBad] at h
    · constructor
      · intro h
        simp only [materialsBad, decide_eq_true_eq] at h
        exact absurd h hs
      · intro _
        simp only [generate_flashcards]
        rw [if_neg hs]
        cases hw : invokeWorkflow gw s with
        | ok p =>
          obtain ⟨fin, tr⟩ := p
          exact ⟨fin.flashcards, none, rfl⟩
        | error e =>
          exact ⟨[], some graphRecursionMessage, rfl⟩

/-- Witness for the amended C2: a non-empty string input yields a result
record. -/
theorem generate_result_or_input_error_witness :
    ∃ fc err, generate_flashcards gwStub (PyMaterials.pystr ("hi".data))
      = Except.ok ⟨fc, err⟩ :=
  (generate_result_or_input_error gwStub (PyMaterials.pystr ("hi".data))).2 rfl

/-- Claim C4 (counterexample): the claim quantifies over every N, but the
`recursion_limit` of 25 supersteps passed at line 334 caps the run at 11
categories (2N+2 supersteps are needed); with 12 distinct planner lines the
invocation aborts with `GraphRecursionError` instead of terminating with
`done=true` and the queue empty. -/
theorem iterator_limit_cex :
    (extractCategories pathologicalPlannerResponse).length = 12 ∧
    (extractCategories pathologicalPlannerResponse).Nodup ∧
    invokeWorkflow gwTwelve ("m".data) = Except.error RunError.recursionLimit := by
  refine ⟨rfl, by decide, ?_⟩
  exact invokeWorkflow_err gwTwelve ("m".data)
    (extractCategories pathologicalPlannerResponse) rfl (by decide)

/-- Claim C4 (amended, corrected): for every N at most 11 (so that the
2N+2 supersteps fit the recursion limit of 25) and every planner response
yielding N distinct category names, the category iterator performs exactly
N Generating transitions, one per category in planner order, and then
terminates with the categories queue empty and the done flag true; for
larger N the run aborts with the recursion-limit error. -/
theorem iterator_visits_each_category (gw : Gateway) (mats : List Char)
    (cats : List (List Char))
    (hcats : extractCategories (gw 0 (categoriesPromptFull mats)) = cats)
    (_hnodup : cats.Nodup) (hlen : cats.length ≤ 11) :
    ∃ fin tr, invokeWorkflow gw mats = Except.ok (fin, tr) ∧
      genList tr = cats ∧
      (genList tr).length = cats.length ∧
      fin.categories = [] ∧ fin.endFlag = true := by
  refine ⟨_, _, invokeWorkflow_ok gw mats cats hcats hlen, ?_, ?_, rfl, rfl⟩
  · rw [genList_cons_other (Node.createCategories, ([] : List Char)) _ (by rfl)]
    exact genList_loopTrace cats []
  · rw [genList_cons_other (Node.createCategories, ([] : List Char)) _ (by rfl)]
    rw [genList_loopTrace cats []]

/-- Witness for the amended C4: two distinct categories produce exactly two
Generating transitions in planner order and a terminal state. -/
theorem iterator_visits_each_category_witness :
    ∃ fin tr, invokeWorkflow gwPair ("m2".data) = Except.ok (fin, tr) ∧
      genList tr = ["Alpha".data, "Beta".data] ∧
      (genList tr).length = (["Alpha".data, "Beta".data] : List (List Char)).length ∧
      fin.categories = [] ∧ fin.endFlag = true :=
  iterator_visits_each_category gwPair ("m2".data) ["Alpha".data, "Beta".data]
    rfl (by decide) (by decide)

/-- Claim C5 (confirmed): the orchestrator enforces the 25-superstep ceiling
on the category loop (`runLoop` is total, so every run terminates), and
whenever the planner yields 12 or more categories — exceeding the ceiling —
the entry point returns the run-level error result
`{"flashcards": {}, "error": str(e)}` with an empty mapping, not a silently
truncated flashcard collection. -/
theorem recursion_ceiling_error_result (gw : Gateway) (mats : List Char)
    (cats : List (List Char)) (hne : mats ≠ [])
    (hcats : extractCategories (gw 0 (categoriesPromptFull mats)) = cats)
    (hlen : 12 ≤ cats.length) :
    generate_flashcards gw (PyMaterials.pystr mats)
      = Except.ok ⟨[], some graphRecursionMessage⟩ := by
  have herr := invokeWorkflow_err gw mats cats hcats hlen
  simp only [generate_flashcards]
  rw [if_neg hne, herr]

/-- Witness for C5: a 13-line planner response makes the run return the
error result with an empty collection. -/
theorem recursion_ceiling_error_result_witness :
    generate_flashcards gwThirteen (PyMaterials.pystr ("study".data))
      = Except.ok ⟨[], some graphRecursionMessage⟩ :=
  recursion_ceiling_error_result gwThirteen ("study".data)
    (extractCategories (gwThirteen 0 (categoriesPromptFull ("study".data))))
    (by decide) rfl (by decide)

/-- Claim C10 (counterexample): the claim quantifies over every run with a
repeated planner name, but with 12 planner lines containing a duplicate the
25-superstep ceiling aborts the run: the caller receives an empty mapping
and an error, so the final mapping does not contain exactly one entry for
the repeated name. -/
theorem duplicate_categories_limit_cex :
    2 ≤ (extractCategories dupPlannerResponse).count ("A".data) ∧
    12 ≤ (extractCategories dupPlannerResponse).length ∧
    generate_flashcards gwDupTwelve (PyMaterials.pystr ("mm".data))
      = Except.ok ⟨[], some graphRecursionMessage⟩ := by
  refine ⟨by decide, by decide, ?_⟩
  have herr := invokeWorkflow_err gwDupTwelve ("mm".data)
    (extractCategories dupPlannerResponse) rfl (by decide)
  simp only [generate_flashcards]
  rw [if_neg (by decide : ¬("mm".data = [])), herr]

/-- Claim C10 (amended, corrected): for every run whose planner yields at
most 11 categories (fitting the recursion limit) with some name occurring
more than once, the queue retains the duplicates and each occurrence gets
its own Generating transition, but the final mapping holds exactly one
entry for that name — the result of the last Generating pass for it (the
gateway call of the last occurrence) — so the mapping has fewer entries
than there were Generating transitions. -/
theorem duplicate_categories_last_wins (gw : Gateway) (mats : List Char)
    (cats : List (List Char)) (name : List Char)
    (hcats : extractCategories (gw 0 (categoriesPromptFull mats)) = cats)
    (hlen : cats.length ≤ 11) (hdup : 2 ≤ cats.count name) :
    ∃ fin tr, invokeWorkflow gw mats = Except.ok (fin, tr) ∧
      genList tr = cats ∧
      2 ≤ (genList tr).count name ∧
      (∃ j, lastGenCall 1 cats name = some j ∧
        dictGet fin.flashcards name = some (genCards gw j mats name)) ∧
      (dictKeys fin.flashcards).count name = 1 ∧
      fin.flashcards.length < (genList tr).length := by
  have hgen : genList ((Node.createCategories, ([] : List Char)) :: loopTrace [] cats)
      = cats := by
    rw [genList_cons_other (Node.createCategories, ([] : List Char)) _ (by rfl)]
    exact genList_loopTrace cats []
  have hmem : name ∈ cats := by
    rw [← List.count_pos_iff]
    omega
  refine ⟨_, _, invokeWorkflow_ok gw mats cats hcats hlen, hgen, ?_, ?_, ?_, ?_⟩
  · rw [hgen]
    exact hdup
  · cases hl : lastGenCall 1 cats name with
    | none => exact absurd hl (lastGenCall_isSome_of_mem name cats 1 hmem)
    | some j =>
      refine ⟨j, rfl, ?_⟩
      show dictGet (genFold gw mats 1 cats []) name = _
      rw [genFold_dictGet, hl]
  · show (dictKeys (genFold gw mats 1 cats [])).count name = 1
    have hsome : (dictGet (genFold gw mats 1 cats []) name).isSome := by
      rw [genFold_dictGet]
      cases hl : lastGenCall 1 cats name with
      | none => exact absurd hl (lastGenCall_isSome_of_mem name cats 1 hmem)
      | some j => rfl
    exact count_eq_one_of_nodup_mem _ name
      (nodup_dictKeys_genFold gw mats cats 1 [] (by simp [dictKeys]))
      (mem_dictKeys_of_isSome _ name hsome)
  · rw [hgen]
    show (genFold gw mats 1 cats []).length < cats.length
    exact genFold_length_lt_of_dup gw mats cats name hdup 1

/-- Witness for the amended C10: planner lines `A B A`, with gateway
responses varying per call index — the final mapping has one entry for `A`,
holding the cards from call 3 (the last A pass), and two entries total
against three Generating transitions. -/
theorem duplicate_categories_last_wins_witness :
    ∃ fin tr, invokeWorkflow dupResponses ("mw".data) = Except.ok (fin, tr) ∧
      genList tr = ["A".data, "B".data, "A".data] ∧
      2 ≤ (genList tr).count ("A".data) ∧
      (∃ j, lastGenCall 1 ["A".data, "B".data, "A".data] ("A".data) = some j ∧
        dictGet fin.flashcards ("A".data)
          = some (genCards dupResponses j ("mw".data) ("A".data))) ∧
      (dictKeys fin.flashcards).count ("A".data) = 1 ∧
      fin.flashcards.length < (genList tr).length :=
  duplicate_categories_last_wins dupResponses ("mw".data)
    ["A".data, "B".data, "A".data] ("A".data) rfl (by decide) (by decide)
